import Mathlib

/-!
# Verification of the artemis bot dispatch core

Shallow embedding of the event/command dispatch runtime of the artemis
Discord bot, translated from the Python sources:

* `artemis/utils/helpers.py`   — `split_command`
* `artemis/commands/parser.py` — `CommandParser.parse`, `ParsedCommand`
* `artemis/events/listener.py` — `EventListener`
* `artemis/events/manager.py`  — `EventManager.add_listener`,
  `dispatch_event`, `dispatch_command`, `_handle_help`
* `artemis/plugin/loader.py`   — `PluginLoader.discover_plugins`,
  `load_plugins`

Python strings are modelled as Lean `String` (per-character, matching
Python's code-point view); Python callables are modelled as opaque
numeric identifiers whose behaviour (return normally / raise) is
supplied as an explicit `Nat → Except String _` environment, mirroring
the `try/except` structure of the source.  Python `dict`s are modelled
as insertion-ordered association lists with `dictGet`/`dictSet`
mirroring `d[k]`/`d[k] = v`.
-/

/-! ## Python dict model -/

/-- Python dict lookup `k in d` / `d[k]`, as an association-list lookup. -/
def dictGet {α : Type} : List (String × α) → String → Option α
  | [], _ => none
  | (k, v) :: rest, key => if k = key then some v else dictGet rest key

/-- Python dict assignment `d[k] = v`: overwrite in place, append if absent. -/
def dictSet {α : Type} : List (String × α) → String → α → List (String × α)
  | [], key, v => [(key, v)]
  | (k, w) :: rest, key, v =>
      if k = key then (k, v) :: rest else (k, w) :: dictSet rest key v

/-! ## Tokenizer (`helpers.split_command`, `CommandParser.parse`) -/

/-- Python `content.startswith(prefix)`. -/
def startswith (content pfx : String) : Bool :=
  pfx.data.isPrefixOf content.data

/-- Worker for Python `str.split()` (no separator): split on whitespace
runs, never producing empty tokens.  `acc` holds the reversed current
token. -/
def splitWs : List Char → List Char → List (List Char)
  | [], acc => if acc.isEmpty then [] else [acc.reverse]
  | c :: cs, acc =>
      if c.isWhitespace then
        if acc.isEmpty then splitWs cs []
        else acc.reverse :: splitWs cs []
      else splitWs cs (c :: acc)

/-- Python `s.split()`. -/
def pySplit (s : String) : List String :=
  (splitWs s.data []).map fun l => ⟨l⟩

/-- Python `s.strip()` (whitespace from both ends). -/
def pyStrip (s : String) : String :=
  ⟨((s.data.dropWhile Char.isWhitespace).reverse.dropWhile Char.isWhitespace).reverse⟩

/-- Python `s.lower()`. -/
def pyLower (s : String) : String :=
  ⟨s.data.map Char.toLower⟩

/-- Translation of `helpers.split_command(content, prefix)`:
```python
if not content.startswith(prefix):
    return []
content = content[len(prefix):].strip()
return content.split()
``` -/
def split_command (content : String) (pfx : String) : List String :=
  if !(startswith content pfx) then []
  else pySplit (pyStrip ⟨content.data.drop pfx.length⟩)

/-- The `parser.ParsedCommand` dataclass. -/
structure ParsedCommand where
  command : String
  args : List String
  content : String
deriving Repr, DecidableEq

/-- Translation of `CommandParser.parse(content)` with configured prefix `pfx`:
```python
if not content.startswith(self.prefix):
    return None
parts = split_command(content, self.prefix)
if not parts:
    return None
return ParsedCommand(command=parts[0].lower(), args=parts[1:], content=content)
``` -/
def parse (pfx : String) (content : String) : Option ParsedCommand :=
  if !(startswith content pfx) then none
  else
    match split_command content pfx with
    | [] => none
    | first :: rest =>
        some { command := pyLower first, args := rest, content := content }

/-! ## Listener descriptor (`listener.EventListener`) -/

/-- The `help_text: Optional[Union[str, Callable]]` field: either a
literal string or a zero-argument producer, the latter modelled as an
opaque identifier resolved by a help-behaviour environment. -/
inductive HelpText where
  | str : String → HelpText
  | fn : Nat → HelpText
deriving Repr, DecidableEq

/-- Python truthiness of a help-text value: a string is truthy iff
non-empty, a callable is always truthy. -/
def HelpText.truthy : HelpText → Bool
  | .str s => s ≠ ""
  | .fn _ => true

/-- Python truthiness of `Optional[Union[str, Callable]]`. -/
def helpTruthy : Option HelpText → Bool
  | some h => h.truthy
  | none => false

/-- The `listener.EventListener` dataclass.  Callbacks are opaque numeric
identifiers; `periodic` is the interval in seconds (`0` is falsy in
Python, like `None`); `guild_id` is the optional guild filter. -/
structure EventListener where
  event_name : Option String := none
  command : Option String := none
  periodic : Option Nat := none
  callback : Option Nat := none
  guild_id : Option Nat := none
  help_text : Option HelpText := none
deriving Repr, DecidableEq

/-! ## Dispatch registry state (`manager.EventManager`) -/

/-- The mutable registry tables of `EventManager.__init__` (the
`_periodic_task_handles` runtime list is out of scope of the claims). -/
structure EventManager where
  event_listeners : List (String × List Nat) := []
  command_listeners : List (String × List (Nat × Option Nat × Option HelpText)) := []
  command_help : List (String × HelpText) := []
  periodic_tasks : List (Nat × Nat) := []
deriving Repr, DecidableEq

/-- A fresh `EventManager()`. -/
def emptyManager : EventManager := {}

/-- First block of `EventManager.add_listener`:
```python
if listener.event_name:
    if listener.event_name not in self.event_listeners:
        self.event_listeners[listener.event_name] = []
    if listener.callback:
        self.event_listeners[listener.event_name].append(listener.callback)
```
(`if listener.event_name:` is Python truthiness: `None` and `""` are
both falsy). -/
def addEventBlock (m : EventManager) (l : EventListener) : EventManager :=
  match l.event_name with
  | none => m
  | some e =>
      if e = "" then m
      else
        let el :=
          if (dictGet m.event_listeners e).isNone
          then dictSet m.event_listeners e [] else m.event_listeners
        match l.callback with
        | none => { m with event_listeners := el }
        | some cb =>
            { m with
                event_listeners := dictSet el e ((dictGet el e).getD [] ++ [cb]) }

/-- Second block of `EventManager.add_listener`:
```python
if listener.command:
    if listener.command not in self.command_listeners:
        self.command_listeners[listener.command] = []
    if listener.callback:
        self.command_listeners[listener.command].append(
            (listener.callback, listener.guild_id, listener.help_text))
        if listener.help_text:
            self.command_help[listener.command] = listener.help_text
``` -/
def addCommandBlock (m : EventManager) (l : EventListener) : EventManager :=
  match l.command with
  | none => m
  | some c =>
      if c = "" then m
      else
        let cl :=
          if (dictGet m.command_listeners c).isNone
          then dictSet m.command_listeners c [] else m.command_listeners
        match l.callback with
        | none => { m with command_listeners := cl }
        | some cb =>
            let cl := dictSet cl c
              ((dictGet cl c).getD [] ++ [(cb, l.guild_id, l.help_text)])
            let ch :=
              if helpTruthy l.help_text
              then dictSet m.command_help c ((l.help_text).getD (.str ""))
              else m.command_help
            { m with command_listeners := cl, command_help := ch }

/-- Third block of `EventManager.add_listener`:
```python
if listener.periodic and listener.callback:
    self.periodic_tasks.append((listener.periodic, listener.callback))
``` -/
def addPeriodicBlock (m : EventManager) (l : EventListener) : EventManager :=
  match l.periodic, l.callback with
  | some p, some cb =>
      if p = 0 then m
      else { m with periodic_tasks := m.periodic_tasks ++ [(p, cb)] }
  | _, _ => m

/-- Translation of `EventManager.add_listener(listener)`: the three blocks in source
order. -/
def EventManager.add_listener (m : EventManager) (l : EventListener) : EventManager :=
  addPeriodicBlock (addCommandBlock (addEventBlock m l) l) l

/-- Register a sequence of descriptors in order. -/
def registerAll (m : EventManager) (ds : List EventListener) : EventManager :=
  ds.foldl EventManager.add_listener m

/-! ## Dispatch (`dispatch_event`, `dispatch_command`, `_handle_help`)

A callback's behaviour is an environment `beh : Nat → Except String Unit`:
`.ok ()` means the Python callable returned normally, `.error msg` means
it raised an exception with message `msg`.  The `try/except` blocks of
the source become matches on that result; `invoked` records every
callback invocation in order and `errors` the exceptions caught and
logged at the dispatch boundary. -/

/-- Outcome of one dispatch loop. -/
structure DispatchLog where
  invoked : List Nat := []
  errors : List (Nat × String) := []
deriving Repr, DecidableEq

/-- The `for callback in self.event_listeners[event_name]` loop of
`dispatch_event`, with its per-callback `try/except`. -/
def runCallbacks (beh : Nat → Except String Unit) : List Nat → DispatchLog
  | [] => {}
  | cb :: rest =>
      let tail := runCallbacks beh rest
      match beh cb with
      | .ok _ => { invoked := cb :: tail.invoked, errors := tail.errors }
      | .error e => { invoked := cb :: tail.invoked, errors := (cb, e) :: tail.errors }

/-- Translation of `EventManager.dispatch_event(event_name, *args)`:
```python
if event_name in self.event_listeners:
    for callback in self.event_listeners[event_name]:
        try:
            ... callback(*args, **kwargs)
        except Exception as e:
            logger.error(...)
```
The function always returns normally; no exception escapes it. -/
def EventManager.dispatch_event (m : EventManager)
    (beh : Nat → Except String Unit) (event_name : String) : DispatchLog :=
  match dictGet m.event_listeners event_name with
  | some cbs => runCallbacks beh cbs
  | none => {}

/-- The `bot.EventData` dataclass: the first positional dispatch argument.
`message` and `guild` are optional platform objects, modelled by their
ids. -/
structure EventData where
  message : Option Nat := none
  guild : Option Nat := none
deriving Repr, DecidableEq

/-- Result of a `dispatch_command` call: invocations, caught callback
errors, replies sent, logged help-producer failures, whether the
unknown-command warning fired, and an exception escaping the call (only
possible on the help path, when the context has no message to reply
through). -/
structure CommandResult where
  invoked : List Nat := []
  errors : List (Nat × String) := []
  replies : List String := []
  helpErrors : List String := []
  unknownWarned : Bool := false
  raised : Option String := none
deriving Repr, DecidableEq

/-- The generic fallback reply of `_handle_help`. -/
def genericHelp (command : String) : String :=
  "No help available for command `" ++ command ++ "`."

/-- Translation of `EventManager._handle_help(command, event_data)`:
```python
if not event_data or not hasattr(event_data, 'message'):
    return
help_text = None
if command in self.command_help:
    help_source = self.command_help[command]
    if isinstance(help_source, str):
        help_text = help_source
    elif callable(help_source):
        try:
            ... help_text = help_source()
        except Exception as e:
            logger.error(...)
if help_text:
    await event_data.message.reply(help_text)
else:
    await event_data.message.reply(f"No help available for command `{command}`.")
```
`EventData` always has a `message` attribute, so `hasattr` is true; the
attribute itself may be `None`, in which case `.reply` raises an
`AttributeError` that escapes (`raised`).  `if help_text:` is Python
truthiness: an empty-string result falls through to the generic
message. -/
def EventManager.handle_help (m : EventManager)
    (helpBeh : Nat → Except String String) (command : String)
    (event_data : Option EventData) : CommandResult :=
  match event_data with
  | none => {}
  | some ed =>
      let resolved : Option String × List String :=
        match dictGet m.command_help command with
        | some (.str s) => (some s, [])
        | some (.fn f) =>
            match helpBeh f with
            | .ok s => (some s, [])
            | .error e =>
                (none, ["Error calling help function for " ++ command ++ ": " ++ e])
        | none => (none, [])
      let text :=
        match resolved.1 with
        | some s => if s = "" then genericHelp command else s
        | none => genericHelp command
      match ed.message with
      | some _ => { replies := [text], helpErrors := resolved.2 }
      | none => { helpErrors := resolved.2, raised := some "AttributeError" }

/-- Translation of `if parsed_args and "-help" in parsed_args:` — Python truthiness of
the optional list, then membership. -/
def helpFlagged : Option (List String) → Bool
  | some l => !l.isEmpty && l.contains "-help"
  | none => false

/-- The `for callback_tuple in self.command_listeners[command]` loop of
`dispatch_command`: skip when the guild filter is set and differs from
the extracted guild id, else invoke under `try/except`. -/
def runCommandCallbacks (beh : Nat → Except String Unit) (guild_id : Option Nat) :
    List (Nat × Option Nat × Option HelpText) → DispatchLog
  | [] => {}
  | (cb, filter_guild_id, _) :: rest =>
      let tail := runCommandCallbacks beh guild_id rest
      if filter_guild_id.isSome && guild_id != filter_guild_id then tail
      else
        match beh cb with
        | .ok _ => { invoked := cb :: tail.invoked, errors := tail.errors }
        | .error e => { invoked := cb :: tail.invoked, errors := (cb, e) :: tail.errors }

/-- Translation of `EventManager.dispatch_command(command, parsed_args, *args)`:
checks the `-help` flag and short-circuits to `_handle_help`; otherwise
extracts `guild_id` from the first positional argument's `guild` field
(`EventData` always has the attribute; a guild object is truthy iff
present) and runs the filtered callback loop; an unknown command only
logs a warning. -/
def EventManager.dispatch_command (m : EventManager)
    (beh : Nat → Except String Unit) (helpBeh : Nat → Except String String)
    (command : String) (parsed_args : Option (List String))
    (event_data : Option EventData) : CommandResult :=
  if helpFlagged parsed_args then
    m.handle_help helpBeh command event_data
  else
    match dictGet m.command_listeners command with
    | some tuples =>
        let guild_id : Option Nat :=
          match event_data with
          | some ed => ed.guild
          | none => none
        let log := runCommandCallbacks beh guild_id tuples
        { invoked := log.invoked, errors := log.errors }
    | none => { unknownWarned := true }

/-! ## Plugin loader (`loader.PluginLoader`) -/

/-- One entry of `inspect.getmembers(module, inspect.isclass)`: the
class (an opaque identity `cls`), its `__module__` string, whether
`issubclass(obj, PluginInterface)` holds and whether it is the
`PluginInterface` class itself. -/
structure ModuleMember where
  cls : Nat
  objModule : String
  isPluginSubclass : Bool
  isInterfaceItself : Bool
deriving Repr, DecidableEq

/-- One entry of `self.plugins_dir.iterdir()`: its name, whether it is
a directory, and the outcome of `importlib.import_module` on it — an
exception message, or the module's class members. -/
structure PluginDirEntry where
  dirName : String
  isDir : Bool
  importOutcome : Except String (List ModuleMember)
deriving Repr

/-- Body of the `for plugin_dir in self.plugins_dir.iterdir()` loop of
`discover_plugins`: skip non-directories; an import failure is logged
and contributes nothing; otherwise collect every member that is a
proper `PluginInterface` subclass defined in `plugins.<dir>` or one of
its submodules, deduplicating against the accumulated list. -/
def discoverStep (plugins : List Nat) (d : PluginDirEntry) : List Nat :=
  if !d.isDir then plugins
  else
    match d.importOutcome with
    | .error _ => plugins
    | .ok members =>
        members.foldl (fun ps mem =>
          if mem.isPluginSubclass
              ∧ ¬mem.isInterfaceItself
              ∧ (mem.objModule = "plugins." ++ d.dirName
                  ∨ startswith mem.objModule ("plugins." ++ d.dirName ++ "."))
              ∧ mem.cls ∉ ps
          then ps ++ [mem.cls] else ps) plugins

/-- Translation of `PluginLoader.discover_plugins()`: fold the per-directory step over
the directory iteration, starting from `plugins = []`. -/
def discover_plugins (dirs : List PluginDirEntry) : List Nat :=
  dirs.foldl discoverStep []

/-- Whether a `register(bot)` call returned normally. -/
def regOk : Except String Unit → Bool
  | .ok _ => true
  | .error _ => false

/-- Translation of `PluginLoader.load_plugins(bot)`:
```python
plugins = self.discover_plugins()
for plugin_class in plugins:
    try:
        plugin_class.register(bot)
        self.loaded_plugins.append(plugin_class)
    except Exception as e:
        logger.error(...)
```
returning the final `loaded_plugins` list (initially empty);
`regBeh p` is the outcome of `p.register(bot)`. -/
def load_plugins (dirs : List PluginDirEntry) (regBeh : Nat → Except String Unit) :
    List Nat :=
  (discover_plugins dirs).foldl (fun loaded p =>
    match regBeh p with
    | .ok _ => loaded ++ [p]
    | .error _ => loaded) []

/-! ## Derived and spec-side definitions -/

/-- The scope the command loop extracts from the dispatch context. -/
def contextScope : Option EventData → Option Nat
  | some ed => ed.guild
  | none => none

/-- The bound-callback tuples for a command keyword. -/
def commandBindings (m : EventManager) (command : String) :
    List (Nat × Option Nat × Option HelpText) :=
  (dictGet m.command_listeners command).getD []

/-- A descriptor binding event `e` to callback `c` and nothing else. -/
def eventDesc (e : String) (c : Nat) : EventListener :=
  { event_name := some e, callback := some c }

/-- Spec-side fold: "most recently registered descriptor for `k` with a callback and
truthy help text wins": the spec-level description of `command_help`,
as amended, stated as a fold over the registration sequence. -/
def lastRegisteredHelp (ds : List EventListener) (k : String) : Option HelpText :=
  ds.foldl (fun acc d =>
    if d.command = some k ∧ d.callback.isSome ∧ helpTruthy d.help_text
    then d.help_text else acc) none

/-- The claim as frozen: "commandHelp[k] equals the helpText of the most
recently registered descriptor for k whose helpText is non-empty" — with
no condition on the descriptor's callback. -/
def lastRegisteredHelpClaim (ds : List EventListener) (k : String) : Option HelpText :=
  ds.foldl (fun acc d =>
    if d.command = some k ∧ helpTruthy d.help_text
    then d.help_text else acc) none

/-- Help resolution described at the claim level (as amended): a stored
string is delivered verbatim when non-empty; a producer is invoked and
its result delivered when non-empty; on a raising producer, an empty
result, or no registered help, the generic message is delivered. -/
def helpReplySpec (m : EventManager) (hb : Nat → Except String String)
    (command : String) : String :=
  match dictGet m.command_help command with
  | some (.str s) => if s = "" then genericHelp command else s
  | some (.fn f) =>
      match hb f with
      | .ok s => if s = "" then genericHelp command else s
      | .error _ => genericHelp command
  | none => genericHelp command

/-! ## Concrete fixtures used by witnesses and counterexamples -/

/-- Three event listeners on `"message"` plus two bound to command
`"go"`. -/
def isoMgr : EventManager :=
  registerAll emptyManager
    [eventDesc "message" 1, eventDesc "message" 2, eventDesc "message" 3,
     { command := some "go", callback := some 4 },
     { command := some "go", callback := some 5 }]

/-- Behaviour where callbacks `2` and `4` raise. -/
def isoBeh : Nat → Except String Unit :=
  fun cb => if cb = 2 ∨ cb = 4 then .error "boom" else .ok ()

/-- A help behaviour that never raises. -/
def okHelp : Nat → Except String String := fun _ => .ok "help text"

/-- One listener bound to command `"ping"`. -/
def helpScMgr : EventManager :=
  registerAll emptyManager [{ command := some "ping", callback := some 1 }]

/-- The spec scenario: descriptor A (`"ping"`, no scope, callback 1) and
descriptor B (`"ping"`, scope guild `1`, callback 2). -/
def scopeMgr : EventManager :=
  registerAll emptyManager
    [{ command := some "ping", callback := some 1 },
     { command := some "ping", callback := some 2, guild_id := some 1 }]

/-- Plugin directory whose import succeeds with one plugin class. -/
def ldDirA : PluginDirEntry := ⟨"a", true, .ok [⟨1, "plugins.a", true, false⟩]⟩

/-- Plugin directory whose import raises. -/
def ldDirBad : PluginDirEntry := ⟨"bad", true, .error "boom"⟩

/-- Plugin directory whose import succeeds with two plugin classes. -/
def ldDirC : PluginDirEntry :=
  ⟨"c", true, .ok [⟨2, "plugins.c", true, false⟩, ⟨3, "plugins.c.impl", true, false⟩]⟩

/-- Registration behaviour where plugin class `2` raises. -/
def ldReg : Nat → Except String Unit :=
  fun p => if p = 2 then .error "register failed" else .ok ()

/-- One listener for command `"c"` whose help text is producer `7`. -/
def helpFnMgr : EventManager :=
  registerAll emptyManager
    [{ command := some "c", callback := some 0, help_text := some (.fn 7) }]

/-- A help producer returning the empty string. -/
def emptyHelpBeh : Nat → Except String String := fun _ => .ok ""

/-- A help producer returning a non-empty dynamic text. -/
def dynHelpBeh : Nat → Except String String := fun _ => .ok "dyn help"

/-- Descriptor for command `"k"` with a callback and help `"h1"`. -/
def helpDesc1 : EventListener :=
  { command := some "k", callback := some 0, help_text := some (.str "h1") }

/-- Descriptor for command `"k"` with help `"h2"` but no callback. -/
def helpDesc2 : EventListener :=
  { command := some "k", help_text := some (.str "h2") }

/-- An incomplete descriptor: three trigger bindings but no callback. -/
def inertDesc : EventListener :=
  { event_name := some "message", command := some "x", periodic := some 60 }

/-- One event listener on `"message"`, used as the base registry for the
inertness witness. -/
def inertBaseMgr : EventManager := registerAll emptyManager [eventDesc "message" 1]

/-! ## Helper lemmas -/

theorem dictGet_dictSet_self {α : Type} (d : List (String × α)) (k : String) (v : α) :
    dictGet (dictSet d k v) k = some v := by
  induction d with
  | nil => simp [dictGet, dictSet]
  | cons hd tl ih =>
      obtain ⟨k', w⟩ := hd
      by_cases h : k' = k <;> simp [dictGet, dictSet, h, ih]

theorem dictGet_dictSet_ne {α : Type} (d : List (String × α)) (k k' : String) (v : α)
    (h : k' ≠ k) : dictGet (dictSet d k v) k' = dictGet d k' := by
  induction d with
  | nil => simp [dictGet, dictSet, Ne.symm h]
  | cons hd tl ih =>
      obtain ⟨k'', w⟩ := hd
      by_cases hk : k'' = k
      · subst hk
        simp [dictGet, dictSet, Ne.symm h]
      · by_cases hk' : k'' = k' <;> simp [dictGet, dictSet, hk, hk', ih, h]

/-- Effect on key `k` of the "ensure key exists with `[]`" idiom. -/
theorem dictGet_ensure_self {α : Type} (d : List (String × List α)) (k : String) :
    (dictGet (if (dictGet d k).isNone then dictSet d k [] else d) k).getD []
      = (dictGet d k).getD [] := by
  cases h : dictGet d k <;> simp [h, dictGet_dictSet_self]

/-- The "ensure key exists" idiom leaves every other key unchanged. -/
theorem dictGet_ensure_ne {α : Type} (d : List (String × List α)) (k k' : String)
    (h : k' ≠ k) :
    dictGet (if (dictGet d k).isNone then dictSet d k [] else d) k' = dictGet d k' := by
  cases hh : dictGet d k <;> simp [hh, dictGet_dictSet_ne d k k' _ h]

theorem runCallbacks_invoked (beh : Nat → Except String Unit) (cbs : List Nat) :
    (runCallbacks beh cbs).invoked = cbs := by
  induction cbs with
  | nil => rfl
  | cons cb rest ih =>
      cases h : beh cb <;> simp [runCallbacks, h, ih]

theorem runCallbacks_errors (beh : Nat → Except String Unit) (cbs : List Nat) :
    (runCallbacks beh cbs).errors
      = cbs.filterMap (fun cb =>
          match beh cb with
          | .error msg => some (cb, msg)
          | .ok _ => none) := by
  induction cbs with
  | nil => rfl
  | cons cb rest ih =>
      cases h : beh cb <;> simp [runCallbacks, h, ih, List.filterMap_cons]

/-- The scope test the command loop performs, in the claim's phrasing:
a binding passes iff it has no scope filter or its filter equals the
context's scope. -/
theorem runCommandCallbacks_invoked (beh : Nat → Except String Unit)
    (gid : Option Nat) (ts : List (Nat × Option Nat × Option HelpText)) :
    (runCommandCallbacks beh gid ts).invoked
      = (ts.filter (fun t => decide (t.2.1 = none ∨ t.2.1 = gid))).map (fun t => t.1) := by
  induction ts with
  | nil => rfl
  | cons t rest ih =>
      obtain ⟨cb, fg, h⟩ := t
      cases fg with
      | none => cases hb : beh cb <;> simp [runCommandCallbacks, hb, ih]
      | some g =>
          by_cases hg : gid = some g
          · subst hg
            cases hb : beh cb <;> simp [runCommandCallbacks, hb, ih]
          · simp [runCommandCallbacks, ih, hg, Ne.symm hg]

theorem runCommandCallbacks_errors (beh : Nat → Except String Unit)
    (gid : Option Nat) (ts : List (Nat × Option Nat × Option HelpText)) :
    (runCommandCallbacks beh gid ts).errors
      = (runCommandCallbacks beh gid ts).invoked.filterMap (fun cb =>
          match beh cb with
          | .error msg => some (cb, msg)
          | .ok _ => none) := by
  induction ts with
  | nil => rfl
  | cons t rest ih =>
      obtain ⟨cb, fg, h⟩ := t
      by_cases hskip : (fg.isSome && gid != fg) = true
      · simp [runCommandCallbacks, hskip, ih]
      · cases hb : beh cb <;>
          simp [runCommandCallbacks, hskip, hb, ih, List.filterMap_cons]

/-- Lemma: `dispatch_event` normalized through `getD []` (an absent key and an
empty list behave identically). -/
theorem dispatch_event_eq (m : EventManager) (beh : Nat → Except String Unit)
    (e : String) :
    m.dispatch_event beh e = runCallbacks beh ((dictGet m.event_listeners e).getD []) := by
  cases h : dictGet m.event_listeners e <;>
    simp [EventManager.dispatch_event, h, runCallbacks]

theorem dispatch_command_invoked_eq (m : EventManager)
    (beh : Nat → Except String Unit) (hb : Nat → Except String String)
    (command : String) (pargs : Option (List String)) (ed : Option EventData)
    (hnf : helpFlagged pargs = false) :
    (m.dispatch_command beh hb command pargs ed).invoked
      = (runCommandCallbacks beh (contextScope ed) (commandBindings m command)).invoked := by
  cases h : dictGet m.command_listeners command <;>
    cases ed <;>
      simp [EventManager.dispatch_command, hnf, h, commandBindings, contextScope,
        runCommandCallbacks]

theorem dispatch_command_errors_eq (m : EventManager)
    (beh : Nat → Except String Unit) (hb : Nat → Except String String)
    (command : String) (pargs : Option (List String)) (ed : Option EventData)
    (hnf : helpFlagged pargs = false) :
    (m.dispatch_command beh hb command pargs ed).errors
      = (runCommandCallbacks beh (contextScope ed) (commandBindings m command)).errors := by
  cases h : dictGet m.command_listeners command <;>
    cases ed <;>
      simp [EventManager.dispatch_command, hnf, h, commandBindings, contextScope,
        runCommandCallbacks]

theorem dispatch_command_raised_none (m : EventManager)
    (beh : Nat → Except String Unit) (hb : Nat → Except String String)
    (command : String) (pargs : Option (List String)) (ed : Option EventData)
    (hnf : helpFlagged pargs = false) :
    (m.dispatch_command beh hb command pargs ed).raised = none := by
  cases h : dictGet m.command_listeners command <;>
    simp [EventManager.dispatch_command, hnf, h]

theorem dispatch_command_replies_nonhelp (m : EventManager)
    (beh : Nat → Except String Unit) (hb : Nat → Except String String)
    (command : String) (pargs : Option (List String)) (ed : Option EventData)
    (hnf : helpFlagged pargs = false) :
    (m.dispatch_command beh hb command pargs ed).replies = [] := by
  cases h : dictGet m.command_listeners command <;>
    simp [EventManager.dispatch_command, hnf, h]

theorem handle_help_invoked (m : EventManager) (hb : Nat → Except String String)
    (command : String) (ed : Option EventData) :
    (m.handle_help hb command ed).invoked = [] := by
  cases ed with
  | none => rfl
  | some d =>
      obtain ⟨msg, gld⟩ := d
      cases h : dictGet m.command_help command with
      | none => cases msg <;> simp [EventManager.handle_help, h]
      | some src =>
          cases src with
          | str s => cases msg <;> simp [EventManager.handle_help, h]
          | fn f => cases hf : hb f <;> cases msg <;> simp [EventManager.handle_help, h, hf]

/-! ### Effect of the three `add_listener` blocks on the registry tables -/

theorem addEventBlock_others (m : EventManager) (l : EventListener) :
    (addEventBlock m l).command_listeners = m.command_listeners
      ∧ (addEventBlock m l).command_help = m.command_help
      ∧ (addEventBlock m l).periodic_tasks = m.periodic_tasks := by
  cases h : l.event_name with
  | none => simp [addEventBlock, h]
  | some e =>
      by_cases he : e = "" <;> cases hc : l.callback <;> simp [addEventBlock, h, he, hc]

theorem addCommandBlock_others (m : EventManager) (l : EventListener) :
    (addCommandBlock m l).event_listeners = m.event_listeners
      ∧ (addCommandBlock m l).periodic_tasks = m.periodic_tasks := by
  cases h : l.command with
  | none => simp [addCommandBlock, h]
  | some c =>
      by_cases hc : c = "" <;> cases hcb : l.callback <;>
        simp [addCommandBlock, h, hc, hcb]

theorem addPeriodicBlock_others (m : EventManager) (l : EventListener) :
    (addPeriodicBlock m l).event_listeners = m.event_listeners
      ∧ (addPeriodicBlock m l).command_listeners = m.command_listeners
      ∧ (addPeriodicBlock m l).command_help = m.command_help := by
  cases hp : l.periodic <;> cases hc : l.callback <;>
    simp [addPeriodicBlock, hp, hc]
  split <;> simp

theorem addEventBlock_get (m : EventManager) (l : EventListener) (e : String) (c : Nat)
    (hev : l.event_name = some e) (he : e ≠ "") (hcb : l.callback = some c) :
    (dictGet (addEventBlock m l).event_listeners e).getD []
      = (dictGet m.event_listeners e).getD [] ++ [c] := by
  simp [addEventBlock, hev, he, hcb, dictGet_dictSet_self, dictGet_ensure_self]
  cases hx : dictGet m.event_listeners e <;> simp [hx, dictGet_dictSet_self]

theorem add_listener_eventDesc_get (m : EventManager) (e : String) (c : Nat)
    (he : e ≠ "") :
    (dictGet (m.add_listener (eventDesc e c)).event_listeners e).getD []
      = (dictGet m.event_listeners e).getD [] ++ [c] := by
  have h1 : (addCommandBlock (addEventBlock m (eventDesc e c)) (eventDesc e c)).event_listeners
      = (addEventBlock m (eventDesc e c)).event_listeners :=
    (addCommandBlock_others _ _).1
  have h2 : (m.add_listener (eventDesc e c)).event_listeners
      = (addEventBlock m (eventDesc e c)).event_listeners := by
    unfold EventManager.add_listener
    rw [(addPeriodicBlock_others _ _).1, h1]
  rw [h2, addEventBlock_get m (eventDesc e c) e c rfl he rfl]

theorem registerAll_eventDesc_get (e : String) (he : e ≠ "") (cs : List Nat) :
    ∀ m : EventManager,
      (dictGet (registerAll m (cs.map (eventDesc e))).event_listeners e).getD []
        = (dictGet m.event_listeners e).getD [] ++ cs := by
  induction cs with
  | nil => intro m; simp [registerAll]
  | cons c rest ih =>
      intro m
      have hstep : registerAll m ((c :: rest).map (eventDesc e))
          = registerAll (m.add_listener (eventDesc e c)) (rest.map (eventDesc e)) := by
        simp [registerAll]
      rw [hstep, ih, add_listener_eventDesc_get m e c he]
      simp

theorem addCommandBlock_command_help_get (m : EventManager) (d : EventListener)
    (k : String) (hk : k ≠ "") :
    dictGet (addCommandBlock m d).command_help k
      = if d.command = some k ∧ d.callback.isSome ∧ helpTruthy d.help_text
        then d.help_text
        else dictGet m.command_help k := by
  cases hcmd : d.command with
  | none => simp [addCommandBlock, hcmd]
  | some c =>
      by_cases hce : c = ""
      · subst hce
        simp [addCommandBlock, hcmd, Ne.symm hk]
      · cases hcb : d.callback with
        | none => simp [addCommandBlock, hcmd, hce, hcb]
        | some cb =>
            by_cases hht : helpTruthy d.help_text
            · obtain ⟨h, hh⟩ : ∃ h, d.help_text = some h := by
                cases hx : d.help_text with
                | none => rw [hx] at hht; simp [helpTruthy] at hht
                | some h => exact ⟨h, rfl⟩
              rw [hh] at hht
              by_cases hck : c = k
              · subst hck
                simp [addCommandBlock, hcmd, hce, hcb, hht, hh,
                  dictGet_dictSet_self]
              · have hkc : k ≠ c := fun hh => hck hh.symm
                simp [addCommandBlock, hcmd, hce, hcb, hht, hh, hck,
                  dictGet_dictSet_ne _ _ _ _ hkc]
            · simp [addCommandBlock, hcmd, hce, hcb, hht]

theorem add_listener_command_help_get (m : EventManager) (d : EventListener)
    (k : String) (hk : k ≠ "") :
    dictGet (m.add_listener d).command_help k
      = if d.command = some k ∧ d.callback.isSome ∧ helpTruthy d.help_text
        then d.help_text
        else dictGet m.command_help k := by
  have h2 : (m.add_listener d).command_help
      = (addCommandBlock (addEventBlock m d) d).command_help := by
    unfold EventManager.add_listener
    rw [(addPeriodicBlock_others _ _).2.2]
  rw [h2, addCommandBlock_command_help_get _ d k hk, (addEventBlock_others m d).2.1]

theorem registerAll_command_help_get (k : String) (hk : k ≠ "") (ds : List EventListener) :
    ∀ m : EventManager,
      dictGet (registerAll m ds).command_help k
        = ds.foldl (fun acc d =>
            if d.command = some k ∧ d.callback.isSome ∧ helpTruthy d.help_text
            then d.help_text else acc) (dictGet m.command_help k) := by
  induction ds with
  | nil => intro m; simp [registerAll]
  | cons d rest ih =>
      intro m
      have hstep : registerAll m (d :: rest) = registerAll (m.add_listener d) rest := by
        simp [registerAll]
      rw [hstep, ih, add_listener_command_help_get m d k hk]
      simp

/-! ### A descriptor without a callback registers nothing -/

theorem addEventBlock_nocb_get (m : EventManager) (d : EventListener)
    (hcb : d.callback = none) (e' : String) :
    (dictGet (addEventBlock m d).event_listeners e').getD []
      = (dictGet m.event_listeners e').getD [] := by
  cases hev : d.event_name with
  | none => simp [addEventBlock, hev]
  | some e =>
      by_cases he : e = ""
      · simp [addEventBlock, hev, he]
      · by_cases hee : e' = e
        · subst hee
          simp [addEventBlock, hev, he, hcb]
          cases hx : dictGet m.event_listeners e' <;> simp [hx, dictGet_dictSet_self]
        · simp [addEventBlock, hev, he, hcb]
          cases hx : dictGet m.event_listeners e <;>
            simp [hx, dictGet_dictSet_ne _ _ _ _ hee]

theorem addCommandBlock_nocb_get (m : EventManager) (d : EventListener)
    (hcb : d.callback = none) (c' : String) :
    (dictGet (addCommandBlock m d).command_listeners c').getD []
      = (dictGet m.command_listeners c').getD [] := by
  cases hcm : d.command with
  | none => simp [addCommandBlock, hcm]
  | some c =>
      by_cases hc : c = ""
      · simp [addCommandBlock, hcm, hc]
      · by_cases hcc : c' = c
        · subst hcc
          simp [addCommandBlock, hcm, hc, hcb]
          cases hx : dictGet m.command_listeners c' <;> simp [hx, dictGet_dictSet_self]
        · simp [addCommandBlock, hcm, hc, hcb]
          cases hx : dictGet m.command_listeners c <;>
            simp [hx, dictGet_dictSet_ne _ _ _ _ hcc]

theorem addCommandBlock_nocb_help (m : EventManager) (d : EventListener)
    (hcb : d.callback = none) :
    (addCommandBlock m d).command_help = m.command_help := by
  cases hcm : d.command with
  | none => simp [addCommandBlock, hcm]
  | some c => by_cases hc : c = "" <;> simp [addCommandBlock, hcm, hc, hcb]

theorem addPeriodicBlock_nocb (m : EventManager) (d : EventListener)
    (hcb : d.callback = none) : addPeriodicBlock m d = m := by
  cases hp : d.periodic <;> simp [addPeriodicBlock, hp, hcb]

/-- Lemma: `_handle_help` reads only the `command_help` table. -/
theorem handle_help_congr (m m' : EventManager) (h : m'.command_help = m.command_help)
    (hb : Nat → Except String String) (c : String) (ed : Option EventData) :
    m'.handle_help hb c ed = m.handle_help hb c ed := by
  unfold EventManager.handle_help
  rw [h]

/-! ### Tokenizer lemmas -/

theorem splitWs_all_ws (l : List Char) (h : ∀ c ∈ l, c.isWhitespace = true) :
    splitWs l [] = [] := by
  induction l with
  | nil => rfl
  | cons c cs ih =>
      have hc := h c (List.mem_cons_self c cs)
      simp [splitWs, hc]
      exact ih fun x hx => h x (List.mem_cons_of_mem c hx)

theorem mem_of_mem_dropWhile {p : Char → Bool} {a : Char} :
    ∀ {l : List Char}, a ∈ l.dropWhile p → a ∈ l := by
  intro l
  induction l with
  | nil => intro h; simp at h
  | cons c cs ih =>
      intro h
      by_cases hp : p c
      · rw [List.dropWhile_cons_of_pos hp] at h
        exact List.mem_cons_of_mem c (ih h)
      · rwa [List.dropWhile_cons_of_neg hp] at h

theorem pyStrip_chars (s : String) (c : Char) (h : c ∈ (pyStrip s).data) :
    c ∈ s.data := by
  have h1 : c ∈ (s.data.dropWhile Char.isWhitespace).reverse.dropWhile Char.isWhitespace :=
    List.mem_reverse.mp h
  have h2 := mem_of_mem_dropWhile h1
  exact mem_of_mem_dropWhile (List.mem_reverse.mp h2)

/-! ### Loader lemmas -/

theorem loadFold (regBeh : Nat → Except String Unit) (l : List Nat) :
    ∀ acc : List Nat,
      l.foldl (fun loaded p =>
        match regBeh p with
        | .ok _ => loaded ++ [p]
        | .error _ => loaded) acc
      = acc ++ l.filter (fun p => regOk (regBeh p)) := by
  induction l with
  | nil => intro acc; simp
  | cons p rest ih =>
      intro acc
      cases h : regBeh p with
      | ok u => simp [h, ih, List.filter_cons, regOk]
      | error e => simp [h, ih, List.filter_cons, regOk]

theorem discoverStep_error (d : PluginDirEntry) (msg : String)
    (h : d.importOutcome = .error msg) (ps : List Nat) : discoverStep ps d = ps := by
  cases hd : d.isDir <;> simp [discoverStep, hd, h]

/-! ## Claim theorems -/

/-- C1. Failure isolation in dispatch: whatever exceptions the
callbacks raise, `dispatch_event` still invokes every listener
registered for the event (in order) and `dispatch_command` invokes the
same callbacks it would with never-failing callbacks; each raising
callback is caught and logged at the dispatch boundary (`errors`), and
the dispatch call returns normally (total function; `raised = none` on
the command path). -/
theorem dispatch_failure_isolation (m : EventManager)
    (beh : Nat → Except String Unit) (hb : Nat → Except String String)
    (e command : String) (pargs : Option (List String)) (ed : Option EventData)
    (hnf : helpFlagged pargs = false) :
    (m.dispatch_event beh e).invoked = (dictGet m.event_listeners e).getD [] ∧
    (m.dispatch_event beh e).errors
      = (m.dispatch_event beh e).invoked.filterMap (fun cb =>
          match beh cb with
          | .error msg => some (cb, msg)
          | .ok _ => none) ∧
    (m.dispatch_command beh hb command pargs ed).invoked
      = (m.dispatch_command (fun _ => Except.ok ()) hb command pargs ed).invoked ∧
    (m.dispatch_command beh hb command pargs ed).errors
      = (m.dispatch_command beh hb command pargs ed).invoked.filterMap (fun cb =>
          match beh cb with
          | .error msg => some (cb, msg)
          | .ok _ => none) ∧
    (m.dispatch_command beh hb command pargs ed).raised = none := by
  refine ⟨?_, ?_, ?_, ?_, ?_⟩
  · rw [dispatch_event_eq, runCallbacks_invoked]
  · rw [dispatch_event_eq, runCallbacks_errors, runCallbacks_invoked]
  · rw [dispatch_command_invoked_eq _ _ _ _ _ _ hnf,
      dispatch_command_invoked_eq _ _ _ _ _ _ hnf,
      runCommandCallbacks_invoked, runCommandCallbacks_invoked]
  · rw [dispatch_command_errors_eq _ _ _ _ _ _ hnf,
      dispatch_command_invoked_eq _ _ _ _ _ _ hnf,
      runCommandCallbacks_errors]
  · exact dispatch_command_raised_none _ _ _ _ _ _ hnf

/-- Witness for C1 at a concrete registry where callbacks 2 and 4
raise: siblings still run, the error is logged, nothing escapes. -/
theorem dispatch_failure_isolation_witness :
    (isoMgr.dispatch_event isoBeh "message").invoked = [1, 2, 3] ∧
    (isoMgr.dispatch_event isoBeh "message").errors = [(2, "boom")] ∧
    (isoMgr.dispatch_command isoBeh okHelp "go" none none).invoked = [4, 5] ∧
    (isoMgr.dispatch_command isoBeh okHelp "go" none none).errors = [(4, "boom")] ∧
    (isoMgr.dispatch_command isoBeh okHelp "go" none none).raised = none := by
  have h := dispatch_failure_isolation isoMgr isoBeh okHelp "message" "go" none none
    (by decide)
  exact ⟨h.1.trans (by decide), h.2.1.trans (by decide), h.2.2.1.trans (by decide),
    h.2.2.2.1.trans (by decide), h.2.2.2.2⟩

/-- C2. Order preservation: registering listeners `cs` for event `e` in
order on a fresh registry and dispatching `e` invokes exactly those
callbacks, in exactly the registration order, for any behaviour. -/
theorem dispatch_event_registration_order (e : String) (he : e ≠ "")
    (cs : List Nat) (beh : Nat → Except String Unit) :
    ((registerAll emptyManager (cs.map (eventDesc e))).dispatch_event beh e).invoked
      = cs := by
  rw [dispatch_event_eq, runCallbacks_invoked, registerAll_eventDesc_get e he cs]
  simp [emptyManager, dictGet]

/-- Witness for C2: three listeners, one of which raises, dispatched in
registration order. -/
theorem dispatch_event_registration_order_witness :
    (("message" : String) ≠ "") ∧
    ((registerAll emptyManager ([10, 2, 30].map (eventDesc "message"))).dispatch_event
        isoBeh "message").invoked = [10, 2, 30] :=
  ⟨by decide, dispatch_event_registration_order "message" (by decide) [10, 2, 30] isoBeh⟩

/-- C3. Help short-circuit: when the argument list contains the literal
`"-help"`, `dispatch_command` routes to help resolution and invokes no
bound command callback, whatever listeners exist. -/
theorem dispatch_command_help_short_circuit (m : EventManager)
    (beh : Nat → Except String Unit) (hb : Nat → Except String String)
    (command : String) (pargs : List String) (ed : Option EventData)
    (hmem : "-help" ∈ pargs) :
    (m.dispatch_command beh hb command (some pargs) ed).invoked = [] ∧
    m.dispatch_command beh hb command (some pargs) ed = m.handle_help hb command ed := by
  have hne : pargs ≠ [] := by
    intro hh
    subst hh
    simp at hmem
  have hflag : helpFlagged (some pargs) = true := by
    simp [helpFlagged, List.isEmpty_iff, hne, hmem]
  have hroute : m.dispatch_command beh hb command (some pargs) ed
      = m.handle_help hb command ed := by
    simp [EventManager.dispatch_command, hflag]
  exact ⟨hroute ▸ handle_help_invoked m hb command ed, hroute⟩

/-- Witness for C3: a bound `"ping"` listener is not invoked when
`"-help"` is among the arguments. -/
theorem dispatch_command_help_short_circuit_witness :
    ("-help" ∈ ["-help"]) ∧
    (helpScMgr.dispatch_command (fun _ => Except.ok ()) okHelp "ping" (some ["-help"])
        (some { message := some 9 })).invoked = [] :=
  ⟨by decide,
    (dispatch_command_help_short_circuit helpScMgr (fun _ => Except.ok ()) okHelp "ping"
        ["-help"] (some { message := some 9 }) (by decide)).1⟩

/-- C4. Scope filtering: a non-help `dispatch_command` invokes exactly
the bound callbacks whose scope filter is unset or equals the context's
scope, in registration order. -/
theorem dispatch_command_scope_filtering (m : EventManager)
    (beh : Nat → Except String Unit) (hb : Nat → Except String String)
    (command : String) (pargs : Option (List String)) (ed : Option EventData)
    (hnf : helpFlagged pargs = false) :
    (m.dispatch_command beh hb command pargs ed).invoked
      = ((commandBindings m command).filter
          (fun t => decide (t.2.1 = none ∨ t.2.1 = contextScope ed))).map
          (fun t => t.1) := by
  rw [dispatch_command_invoked_eq _ _ _ _ _ _ hnf, runCommandCallbacks_invoked]

/-- Witness for C4, the spec scenario: with context scope guild `1`
both bindings fire; with guild `2` or no guild only the unscoped one
fires. -/
theorem dispatch_command_scope_filtering_witness :
    (scopeMgr.dispatch_command (fun _ => Except.ok ()) okHelp "ping" none
        (some { guild := some 1 })).invoked = [1, 2] ∧
    (scopeMgr.dispatch_command (fun _ => Except.ok ()) okHelp "ping" none
        (some { guild := some 2 })).invoked = [1] ∧
    (scopeMgr.dispatch_command (fun _ => Except.ok ()) okHelp "ping" none
        none).invoked = [1] := by
  refine ⟨?_, ?_, ?_⟩
  · exact (dispatch_command_scope_filtering scopeMgr _ okHelp "ping" none
      (some { guild := some 1 }) (by decide)).trans (by decide)
  · exact (dispatch_command_scope_filtering scopeMgr _ okHelp "ping" none
      (some { guild := some 2 }) (by decide)).trans (by decide)
  · exact (dispatch_command_scope_filtering scopeMgr _ okHelp "ping" none
      none (by decide)).trans (by decide)

/-- C5. Tokenizer contract: `parse` returns `none` when the content does
not start with the prefix; otherwise it strips the prefix, trims
surrounding whitespace, splits on whitespace runs, lower-cases the first
token into `command` and puts the remaining tokens in `args`. -/
theorem parse_contract (pfx content : String) :
    (startswith content pfx = false → parse pfx content = none) ∧
    (startswith content pfx = true →
      parse pfx content =
        match pySplit (pyStrip ⟨content.data.drop pfx.length⟩) with
        | [] => none
        | first :: rest =>
            some { command := pyLower first, args := rest, content := content }) := by
  constructor
  · intro h
    simp [parse, h]
  · intro h
    simp [parse, split_command, h]

/-- Witness for C5, the spec's round-trip:
`parse("!foo bar baz", "!")` yields `command="foo"`, `args=["bar","baz"]`,
and `parse("no-prefix", "!")` yields none. -/
theorem parse_contract_witness :
    parse "!" "!foo bar baz"
      = some { command := "foo", args := ["bar", "baz"], content := "!foo bar baz" } ∧
    parse "!" "no-prefix" = none := by
  constructor
  · exact ((parse_contract "!" "!foo bar baz").2 (by decide)).trans (by decide)
  · exact (parse_contract "!" "no-prefix").1 (by decide)

/-- C6. Loader failure containment: `load_plugins` yields exactly the
discovered plugins whose `register` returned normally (in discovery
order); a directory whose import raises contributes nothing and does not
prevent discovery of the other directories. -/
theorem loader_failure_containment (dirs pre post : List PluginDirEntry)
    (bad : PluginDirEntry) (msg : String) (regBeh : Nat → Except String Unit)
    (himp : bad.importOutcome = Except.error msg) :
    load_plugins dirs regBeh
      = (discover_plugins dirs).filter (fun p => regOk (regBeh p)) ∧
    discover_plugins (pre ++ bad :: post) = discover_plugins (pre ++ post) ∧
    load_plugins (pre ++ bad :: post) regBeh
      = (discover_plugins (pre ++ post)).filter (fun p => regOk (regBeh p)) := by
  have hdisc : discover_plugins (pre ++ bad :: post) = discover_plugins (pre ++ post) := by
    simp [discover_plugins, List.foldl_append, List.foldl_cons,
      discoverStep_error bad msg himp]
  refine ⟨?_, hdisc, ?_⟩
  · simp [load_plugins, loadFold]
  · simp [load_plugins, hdisc, loadFold]

/-- Witness for C6: three directories, the middle import raises, and
plugin class 2's `register` raises — the loaded list holds exactly the
surviving classes 1 and 3. -/
theorem loader_failure_containment_witness :
    (ldDirBad.importOutcome = Except.error "boom") ∧
    load_plugins [ldDirA, ldDirBad, ldDirC] ldReg = [1, 3] ∧
    discover_plugins [ldDirA, ldDirBad, ldDirC] = discover_plugins [ldDirA, ldDirC] := by
  have h := loader_failure_containment [ldDirA, ldDirBad, ldDirC] [ldDirA] [ldDirC]
    ldDirBad "boom" ldReg rfl
  exact ⟨rfl, h.1.trans (by decide), h.2.1⟩

/-- C7 counterexample: a registered help producer that returns the empty
string.  The producer is invoked and returns `""`, yet the reply
delivered is the generic "no help available" message rather than the
producer's result — refuting "the producer is invoked and its result
delivered" as stated. -/
theorem help_producer_empty_result_counterexample :
    emptyHelpBeh 7 = Except.ok "" ∧
    (helpFnMgr.dispatch_command (fun _ => Except.ok ()) emptyHelpBeh "c"
        (some ["-help"]) (some { message := some 1 })).replies
      = ["No help available for command `c`."] ∧
    ("No help available for command `c`." : String) ≠ "" :=
  ⟨rfl, by decide, by decide⟩

/-- C7 as amended: on a help request for a context that can reply, the
reply is the stored string (verbatim, when non-empty) or the producer's
result (when non-empty); a raising producer, an empty result, an empty
stored string, or no registered help all deliver the generic message;
and a raising producer is additionally logged. -/
theorem help_resolution_amended (m : EventManager)
    (beh : Nat → Except String Unit) (hb : Nat → Except String String)
    (command : String) (ed : EventData) (mid : Nat) (hmsg : ed.message = some mid) :
    (m.dispatch_command beh hb command (some ["-help"]) (some ed)).replies
      = [helpReplySpec m hb command] ∧
    (∀ f msg, dictGet m.command_help command = some (.fn f) → hb f = .error msg →
      (m.dispatch_command beh hb command (some ["-help"]) (some ed)).helpErrors ≠ []) := by
  have hflag : helpFlagged (some ["-help"]) = true := by decide
  have hdc : m.dispatch_command beh hb command (some ["-help"]) (some ed)
      = m.handle_help hb command (some ed) := by
    simp [EventManager.dispatch_command, hflag]
  rw [hdc]
  constructor
  · cases h : dictGet m.command_help command with
    | none => simp [EventManager.handle_help, h, helpReplySpec, hmsg]
    | some src =>
        cases src with
        | str s => simp [EventManager.handle_help, h, helpReplySpec, hmsg]
        | fn f =>
            cases hf : hb f <;>
              simp [EventManager.handle_help, h, hf, helpReplySpec, hmsg]
  · intro f msg hfm hberr
    simp [EventManager.handle_help, hfm, hberr, hmsg]

/-- Witness for the amended C7: a producer returning non-empty text has
that text delivered verbatim. -/
theorem help_resolution_amended_witness :
    (({ message := some 1 } : EventData).message = some 1) ∧
    (helpFnMgr.dispatch_command (fun _ => Except.ok ()) dynHelpBeh "c"
        (some ["-help"]) (some { message := some 1 })).replies = ["dyn help"] :=
  ⟨rfl,
    ((help_resolution_amended helpFnMgr (fun _ => Except.ok ()) dynHelpBeh "c"
        { message := some 1 } 1 rfl).1).trans (by decide)⟩

/-- C8 counterexample: register a descriptor for `"k"` with callback and
help `"h1"`, then one with help `"h2"` but no callback.  The most
recently registered descriptor for `"k"` with non-empty help text
carries `"h2"` (per the claim's own fold), yet `command_help` still
holds `"h1"`: the help of a callback-less descriptor is never stored. -/
theorem command_help_no_callback_counterexample :
    lastRegisteredHelpClaim [helpDesc1, helpDesc2] "k" = some (.str "h2") ∧
    dictGet (registerAll emptyManager [helpDesc1, helpDesc2]).command_help "k"
      = some (.str "h1") ∧
    (HelpText.str "h1" ≠ HelpText.str "h2") := by
  refine ⟨by decide, by decide, by decide⟩

/-- C8 as amended: after registering any descriptor sequence on a fresh
registry, `command_help[k]` equals the help text of the most recently
registered descriptor for `k` whose callback is set and whose help text
is non-empty (truthy); all other registrations leave it unchanged. -/
theorem command_help_last_registered_amended (ds : List EventListener) (k : String)
    (hk : k ≠ "") :
    dictGet (registerAll emptyManager ds).command_help k = lastRegisteredHelp ds k := by
  rw [registerAll_command_help_get k hk ds]
  simp [lastRegisteredHelp, emptyManager, dictGet]

/-- Witness for the amended C8 on the counterexample's registration
sequence. -/
theorem command_help_last_registered_amended_witness :
    (("k" : String) ≠ "") ∧
    dictGet (registerAll emptyManager [helpDesc1, helpDesc2]).command_help "k"
      = lastRegisteredHelp [helpDesc1, helpDesc2] "k" :=
  ⟨by decide,
    command_help_last_registered_amended [helpDesc1, helpDesc2] "k" (by decide)⟩

/-- C9. Inert incomplete descriptor: registering a descriptor without a
callback appends nothing to any event-listener list, command-listener
list or the periodic-task list, leaves `command_help` unchanged, and
every subsequent `dispatch_event` result and `dispatch_command`
invocation/reply behaviour is as if the descriptor had never been
registered. -/
theorem register_without_callback_inert (m : EventManager) (d : EventListener)
    (hcb : d.callback = none) :
    (∀ e, (dictGet (m.add_listener d).event_listeners e).getD []
        = (dictGet m.event_listeners e).getD []) ∧
    (∀ c, (dictGet (m.add_listener d).command_listeners c).getD []
        = (dictGet m.command_listeners c).getD []) ∧
    (m.add_listener d).command_help = m.command_help ∧
    (m.add_listener d).periodic_tasks = m.periodic_tasks ∧
    (∀ beh e, (m.add_listener d).dispatch_event beh e = m.dispatch_event beh e) ∧
    (∀ beh hb c pargs ed,
      ((m.add_listener d).dispatch_command beh hb c pargs ed).invoked
        = (m.dispatch_command beh hb c pargs ed).invoked ∧
      ((m.add_listener d).dispatch_command beh hb c pargs ed).replies
        = (m.dispatch_command beh hb c pargs ed).replies) := by
  have hper : m.add_listener d = addCommandBlock (addEventBlock m d) d := by
    unfold EventManager.add_listener
    rw [addPeriodicBlock_nocb _ _ hcb]
  have hev : ∀ e, (dictGet (m.add_listener d).event_listeners e).getD []
      = (dictGet m.event_listeners e).getD [] := by
    intro e
    rw [hper, (addCommandBlock_others _ _).1, addEventBlock_nocb_get m d hcb e]
  have hcl : ∀ c, (dictGet (m.add_listener d).command_listeners c).getD []
      = (dictGet m.command_listeners c).getD [] := by
    intro c
    have := addCommandBlock_nocb_get (addEventBlock m d) d hcb c
    rw [hper, this, (addEventBlock_others m d).1]
  have hch : (m.add_listener d).command_help = m.command_help := by
    rw [hper, addCommandBlock_nocb_help _ d hcb, (addEventBlock_others m d).2.1]
  have hpt : (m.add_listener d).periodic_tasks = m.periodic_tasks := by
    rw [hper, (addCommandBlock_others _ _).2, (addEventBlock_others m d).2.2]
  refine ⟨hev, hcl, hch, hpt, ?_, ?_⟩
  · intro beh e
    rw [dispatch_event_eq, dispatch_event_eq, hev e]
  · intro beh hb c pargs ed
    by_cases hflag : helpFlagged pargs = true
    · have h1 : (m.add_listener d).dispatch_command beh hb c pargs ed
          = (m.add_listener d).handle_help hb c ed := by
        simp [EventManager.dispatch_command, hflag]
      have h2 : m.dispatch_command beh hb c pargs ed = m.handle_help hb c ed := by
        simp [EventManager.dispatch_command, hflag]
      rw [h1, h2, handle_help_congr m _ hch]
      exact ⟨rfl, rfl⟩
    · have hnf : helpFlagged pargs = false := by
        simpa using hflag
      constructor
      · rw [dispatch_command_invoked_eq _ _ _ _ _ _ hnf,
          dispatch_command_invoked_eq _ _ _ _ _ _ hnf]
        unfold commandBindings
        rw [hcl c]
      · rw [dispatch_command_replies_nonhelp _ _ _ _ _ _ hnf,
          dispatch_command_replies_nonhelp _ _ _ _ _ _ hnf]

/-- Witness for C9: a descriptor binding an event, a command and an
interval but no callback changes nothing observable. -/
theorem register_without_callback_inert_witness :
    (inertDesc.callback = none) ∧
    ((inertBaseMgr.add_listener inertDesc).dispatch_event (fun _ => Except.ok ())
        "message").invoked = [1] ∧
    (inertBaseMgr.add_listener inertDesc).periodic_tasks = [] := by
  have h := register_without_callback_inert inertBaseMgr inertDesc rfl
  refine ⟨rfl, ?_, ?_⟩
  · rw [h.2.2.2.2.1 (fun _ => Except.ok ()) "message"]
    decide
  · rw [h.2.2.2.1]
    decide

/-- C10. Implicit tokenizer edge case: content that starts with the
prefix but is whitespace-only after it (including content equal to the
prefix itself) parses to `none` — never to a `ParsedCommand` with an
empty command keyword. -/
theorem parse_prefix_whitespace_only_none (pfx content : String)
    (h1 : startswith content pfx = true)
    (h2 : ∀ c ∈ content.data.drop pfx.length, c.isWhitespace = true) :
    parse pfx content = none := by
  have hall : ∀ c ∈ (pyStrip ⟨content.data.drop pfx.length⟩).data, c.isWhitespace = true :=
    fun c hc => h2 c (pyStrip_chars _ c hc)
  have hsplit : pySplit (pyStrip ⟨content.data.drop pfx.length⟩) = [] := by
    simp [pySplit, splitWs_all_ws _ hall]
  simp [parse, split_command, h1, hsplit]

/-- Witness for C10 at `content = "!  "` (and the bare prefix `"!"`). -/
theorem parse_prefix_whitespace_only_none_witness :
    (startswith "!  " "!" = true) ∧ parse "!" "!  " = none ∧ parse "!" "!" = none := by
  refine ⟨by decide, ?_, ?_⟩
  · exact parse_prefix_whitespace_only_none "!" "!  " (by decide) (by decide)
  · exact parse_prefix_whitespace_only_none "!" "!" (by decide) (by decide)
